import Mathlib

set_option maxHeartbeats 1000000

namespace BusinessRules

/-- A cell of the tabular dataset: a string, an integer, a null (Python None
or pandas NA), or a list of strings (for columns of iterables and for
list-valued literals). -/
inductive Cell where
  | str (s : String)
  | int (n : Int)
  | null
  | strList (l : List String)
deriving Repr, DecidableEq

/-- Python truthiness of a cell value: empty string, zero, None and the
empty list are falsy. -/
def cellTruthy : Cell → Bool
  | .str s => s != ""
  | .int n => n != 0
  | .null => false
  | .strList l => !l.isEmpty

/-- The emptiness test used by the clinical equality checks in
DataframeType.check_equality and check_inequality:
(x == "" or x is None). -/
def isEmptyCell : Cell → Bool
  | .str s => s == ""
  | .null => true
  | _ => false

/-- Python str.lower(): character-wise lowercasing. -/
def strLower (s : String) : String :=
  ⟨s.data.map Char.toLower⟩

/-- Python s.startswith(p): the characters of p lead the characters of s. -/
def strStartsWith (s p : String) : Bool :=
  p.data.isPrefixOf s.data

/-- Python s[n:] for a non-negative index n. -/
def strDrop (s : String) (n : Nat) : String :=
  ⟨s.data.drop n⟩

/-- Python s[:n] for a non-negative index n. -/
def strTake (s : String) (n : Nat) : String :=
  ⟨s.data.take n⟩

/-- Embeds the expression (x.lower() if x else None) of the case-insensitive
equality branch. Calling lower() on a truthy non-string raises an
AttributeError in Python, modelled as none. -/
def lowerIfTruthy (c : Cell) : Option Cell :=
  if cellTruthy c then
    match c with
    | .str s => some (.str (strLower s))
    | _ => none
  else some .null

/-- Cells that are a string or null; the fragment on which the string
comparison operators are exercised. -/
def strOrNull : Cell → Bool
  | .str _ => true
  | .null => true
  | _ => false

/-- Extracts a string from a cell; none models the type errors raised for
non-string cells. -/
def cellAsStr? : Cell → Option String
  | .str s => some s
  | _ => none

/-- An ordered table with named columns (the pandas DataFrame, stored
column-major, in column insertion order). -/
structure DataFrame where
  cols : List (String × List Cell)
deriving Repr, DecidableEq

def DataFrame.colNames (df : DataFrame) : List String := df.cols.map (fun p => p.1)

/-- Column lookup, as pandas df.get and df[c]: first column of that name. -/
def DataFrame.get? (df : DataFrame) (c : String) : Option (List Cell) :=
  (df.cols.find? (fun p => p.1 == c)).map (fun p => p.2)

/-- Membership test (c in df), which in pandas checks the column names. -/
def DataFrame.hasCol (df : DataFrame) (c : String) : Bool := (df.get? c).isSome

/-- len(df): the number of rows of the table. -/
def DataFrame.nrows (df : DataFrame) : Nat :=
  match df.cols with
  | [] => 0
  | p :: _ => p.2.length

/-- The cell of column c at row r. -/
def DataFrame.cell? (df : DataFrame) (c : String) (r : Nat) : Option Cell :=
  (df.get? c).bind (fun col => col.get? r)

/-- Well-formedness of a table: every column has exactly nrows cells. -/
def DataFrame.WF (df : DataFrame) : Prop :=
  ∀ p ∈ df.cols, p.2.length = df.nrows

/-- Applies f to every list element, aborting the whole computation on the
first failure: the model of vectorized evaluation in which a raised
exception aborts the operator call with no partial result. -/
def mapOpt (f : α → Option β) : List α → Option (List β)
  | [] => some []
  | a :: rest =>
    match f a, mapOpt f rest with
    | some b, some bs => some (b :: bs)
    | _, _ => none

theorem mapOpt_eq_some_of_forall (f : α → Option β) (xs : List α)
    (h : ∀ x ∈ xs, (f x).isSome) : ∃ ys, mapOpt f xs = some ys := by
  induction xs with
  | nil => exact ⟨[], rfl⟩
  | cons a rest ih =>
    obtain ⟨ys, hys⟩ := ih (fun x hx => h x (List.mem_cons_of_mem a hx))
    have ha := h a (List.mem_cons_self a rest)
    obtain ⟨b, hb⟩ := Option.isSome_iff_exists.mp ha
    exact ⟨b :: ys, by simp [mapOpt, hb, hys]⟩

theorem mapOpt_get? {f : α → Option β} {xs : List α} {ys : List β}
    (h : mapOpt f xs = some ys) {r : Nat} {x : α} (hx : xs.get? r = some x) :
    ys.get? r = f x := by
  induction xs generalizing ys r with
  | nil => simp at hx
  | cons a rest ih =>
    simp only [mapOpt] at h
    cases hfa : f a with
    | none => rw [hfa] at h; simp at h
    | some b =>
      rw [hfa] at h
      cases hrest : mapOpt f rest with
      | none => rw [hrest] at h; simp at h
      | some bs =>
        rw [hrest] at h
        simp only [Option.some.injEq] at h
        subst h
        cases r with
        | zero =>
          simp only [List.get?] at hx ⊢
          cases hx
          rw [hfa]
        | succ n =>
          simp only [List.get?] at hx ⊢
          exact ih hrest hx

theorem mapOpt_length {f : α → Option β} {xs : List α} {ys : List β}
    (h : mapOpt f xs = some ys) : ys.length = xs.length := by
  induction xs generalizing ys with
  | nil => simp [mapOpt] at h; simp [h]
  | cons a rest ih =>
    simp only [mapOpt] at h
    cases hfa : f a with
    | none => rw [hfa] at h; simp at h
    | some b =>
      rw [hfa] at h
      cases hrest : mapOpt f rest with
      | none => rw [hrest] at h; simp at h
      | some bs =>
        rw [hrest] at h
        simp only [Option.some.injEq] at h
        subst h
        simp [ih hrest]

theorem mapOpt_eq_none_of_mem {f : α → Option β} {xs : List α} {x : α}
    (hx : x ∈ xs) (h : f x = none) : mapOpt f xs = none := by
  induction xs with
  | nil => simp at hx
  | cons a rest ih =>
    rcases List.mem_cons.mp hx with rfl | hmem
    · simp [mapOpt, h]
    · simp only [mapOpt]
      cases f a with
      | none => rfl
      | some b => rw [ih hmem]

/-- The structured argument dict passed to a dataframe operator (only the
fields read by the operators verified here; each field models
other_value.get of the same key). -/
structure Args where
  target : String
  comparator : Cell
  value_is_literal : Bool
  within : String
  regex : String
  prefixLen : Int
  suffixLen : Int
deriving Repr

/-- One codelist entry of a codelist_term_maps element: the value of
codelist_term_map[codelist]; the two dict keys are optional
(dict.get returns None when absent). -/
structure TermMapEntry where
  extensible : Option Bool
  allowed_terms : Option (List String)
deriving Repr, DecidableEq

/-- The dataframe value wrapper: the table plus the auxiliary maps read by
the operators verified here. column_prefix_map is an insertion-ordered
association list, as a Python dict iterates in insertion order. -/
structure DataframeType where
  value : DataFrame
  column_prefix_map : List (String × String)
  codelist_term_maps : List (List (String × TermMapEntry))
deriving Repr

/-- Embeds DataframeType.replace_prefix: scan the column_prefix_map entries
in iteration (insertion) order and, at the first key that is a prefix of
the value, replace that first occurrence (value.replace(prefix,
replacement, 1), which given startswith rewrites the front). -/
def DataframeType.replacePfx (d : DataframeType) (value : String) : String :=
  match d.column_prefix_map.find? (fun p => strStartsWith value p.1) with
  | some p => p.2 ++ strDrop value p.1.length
  | none => value

/-- replace_prefix applied to a possibly non-string argument: Python
returns non-string values unchanged (the isinstance guard). -/
def DataframeType.cellReplacePfx (d : DataframeType) : Cell → Cell
  | .str s => .str (d.replacePfx s)
  | c => c

/-- The comparator of the row-wise equality checks, resolved per row:
comparator if comparator not in row or value_is_literal else
row[comparator]. -/
def resolveComparison (df : DataFrame) (r : Nat) (comparator : Cell)
    (value_is_literal : Bool) : Option Cell :=
  match comparator with
  | .str c =>
    if !value_is_literal && df.hasCol c then df.cell? c r else some (.str c)
  | c => some c

/-- Embeds DataframeType._check_equality at one row: clinical null
handling (both operands empty gives False), then ordinary or
case-insensitive comparison. -/
def check_equality (df : DataFrame) (r : Nat) (target : String)
    (comparator : Cell) (value_is_literal : Bool) (case_insensitive : Bool) :
    Option Bool :=
  match resolveComparison df r comparator value_is_literal with
  | none => none
  | some comparison_data =>
    match df.cell? target r with
    | none => none
    | some tv =>
      if isEmptyCell comparison_data && isEmptyCell tv then some false
      else if case_insensitive then
        match lowerIfTruthy tv, lowerIfTruthy comparison_data with
        | some tv2, some cv2 => some (tv2 == cv2)
        | _, _ => none
      else some (tv == comparison_data)

/-- Embeds DataframeType._check_inequality at one row: both operands empty
gives False (not True), otherwise the negated comparison. -/
def check_inequality (df : DataFrame) (r : Nat) (target : String)
    (comparator : Cell) (value_is_literal : Bool) (case_insensitive : Bool) :
    Option Bool :=
  match resolveComparison df r comparator value_is_literal with
  | none => none
  | some comparison_data =>
    match df.cell? target r with
    | none => none
    | some tv =>
      if isEmptyCell comparison_data && isEmptyCell tv then some false
      else if case_insensitive then
        match lowerIfTruthy tv, lowerIfTruthy comparison_data with
        | some tv2, some cv2 => some (tv2 != cv2)
        | _, _ => none
      else some (tv != comparison_data)

/-- The comparator actually passed down by the equality operators:
replace_prefix is applied only when the value is not literal. -/
def DataframeType.effComparator (d : DataframeType) (a : Args) : Cell :=
  if a.value_is_literal then a.comparator else d.cellReplacePfx a.comparator

/-- The comparison value the equality operators resolve at row r. -/
def DataframeType.resolvedComp (d : DataframeType) (a : Args) (r : Nat) :
    Option Cell :=
  resolveComparison d.value r (d.effComparator a) a.value_is_literal

/-- Embeds DataframeType.equal_to: row-wise clinical equality over the
whole table. -/
def DataframeType.equal_to (d : DataframeType) (a : Args) : Option (List Bool) :=
  let target := d.replacePfx a.target
  let comparator := d.effComparator a
  mapOpt (fun r => check_equality d.value r target comparator a.value_is_literal false)
    (List.range d.value.nrows)

/-- Embeds DataframeType.not_equal_to (defined through _check_inequality,
not as a complement of equal_to). -/
def DataframeType.not_equal_to (d : DataframeType) (a : Args) : Option (List Bool) :=
  let target := d.replacePfx a.target
  let comparator := d.effComparator a
  mapOpt (fun r => check_inequality d.value r target comparator a.value_is_literal false)
    (List.range d.value.nrows)

/-- Embeds DataframeType.equal_to_case_insensitive. -/
def DataframeType.equal_to_case_insensitive (d : DataframeType) (a : Args) :
    Option (List Bool) :=
  let target := d.replacePfx a.target
  let comparator := d.effComparator a
  mapOpt (fun r => check_equality d.value r target comparator a.value_is_literal true)
    (List.range d.value.nrows)

/-- Embeds DataframeType.not_equal_to_case_insensitive. -/
def DataframeType.not_equal_to_case_insensitive (d : DataframeType) (a : Args) :
    Option (List Bool) :=
  let target := d.replacePfx a.target
  let comparator := d.effComparator a
  mapOpt (fun r => check_inequality d.value r target comparator a.value_is_literal true)
    (List.range d.value.nrows)

/-- Embeds DataframeType.exists: a mask of length len(df), uniformly the
column membership test (target_column in self.value). -/
def DataframeType.existsOp (d : DataframeType) (a : Args) : List Bool :=
  let target_column := d.replacePfx a.target
  List.replicate d.value.nrows (d.value.hasCol target_column)

/-- Embeds DataframeType.not_exists = ~exists. -/
def DataframeType.not_existsOp (d : DataframeType) (a : Args) : List Bool :=
  (d.existsOp a).map (fun b => !b)

/-- Modelled from the external re utility for metacharacter-free (literal)
patterns: re.match anchors at the start, so a literal pattern matches iff it
is a prefix of the subject. -/
def reMatch (pat s : String) : Bool :=
  pat.data.isPrefixOf s.data

/-- Substring occurrence over character lists. -/
def listContainsSub (hay needle : List Char) : Bool :=
  needle.isPrefixOf hay ||
    match hay with
    | [] => false
    | _ :: t => listContainsSub t needle

/-- Modelled from the external re utility for metacharacter-free (literal)
patterns: re.search is unanchored, so a literal pattern matches iff it
occurs anywhere in the subject. -/
def reSearch (pat s : String) : Bool :=
  listContainsSub s.toList pat.toList

/-- Embeds DataframeType.matches_regex: pandas Series.str.match of the raw
comparator against the target column (the comparator is not
prefix-rewritten here). A non-string pattern makes re fail; non-string
cells yield NA in pandas, treated here as failure as well, so the
embedding is exercised only on all-string columns. -/
def DataframeType.matches_regex (d : DataframeType) (a : Args) :
    Option (List Bool) :=
  match d.value.get? (d.replacePfx a.target) with
  | none => none
  | some col =>
    match cellAsStr? a.comparator with
    | none => none
    | some pat => mapOpt (fun c => (cellAsStr? c).map (fun s => reMatch pat s)) col

/-- Embeds DataframeType.not_matches_regex = ~matches_regex. -/
def DataframeType.not_matches_regex (d : DataframeType) (a : Args) :
    Option (List Bool) :=
  (d.matches_regex a).map (List.map (fun b => !b))

/-- The comparison data of an operator: either a whole column (when the
comparator names a column of the table) or the raw value itself. -/
inductive CompData where
  | col (cs : List Cell)
  | scalar (c : Cell)
deriving Repr, DecidableEq

/-- Embeds DataframeType.get_comparator_data:
self.value.get(comparator, comparator) unless the value is literal. -/
def DataframeType.get_comparator_data (d : DataframeType) (comparator : Cell)
    (value_is_literal : Bool) : CompData :=
  if value_is_literal then .scalar comparator
  else
    match comparator with
    | .str c =>
      match d.value.get? c with
      | some col => .col col
      | none => .scalar (.str c)
    | c => .scalar c

/-- Python slice s[start:] with a possibly negative start, as used by
Series.str.slice(-length) for suffixes (slice(-0) is the whole string). -/
def pySliceFrom (start : Int) (s : String) : String :=
  let n : Int := (s.length : Int)
  let i : Int := if start < 0 then max (n + start) 0 else min start n
  strDrop s i.toNat

/-- Python slice s[:stop] with a possibly negative stop, as used by
Series.str.slice(stop=length) for prefixes. -/
def pySliceStop (stop : Int) (s : String) : String :=
  let n : Int := (s.length : Int)
  let j : Int := if stop < 0 then max (n + stop) 0 else min stop n
  strTake s j.toNat

/-- Embeds DataframeType._get_string_part_series: raises (none) when any
cell of the target column is a non-string value, otherwise slices every
cell to its prefix or suffix of the given length. -/
def DataframeType.get_string_part_series (d : DataframeType)
    (part_to_validate : String) (length : Int) (target : String) :
    Option (List String) :=
  match d.value.get? target with
  | none => none
  | some col =>
    match mapOpt cellAsStr? col with
    | none => none
    | some strs =>
      if part_to_validate == "suffix" then some (strs.map (pySliceFrom (-length)))
      else if part_to_validate == "prefix" then some (strs.map (pySliceStop length))
      else none

/-- Embeds is_column_of_iterables: a Series whose first element is a list
or a set; .iloc[0] on an empty Series raises, modelled as none. -/
def is_column_of_iterables : CompData → Option Bool
  | .col [] => none
  | .col (c :: _) =>
    some (match c with
          | .strList _ => true
          | _ => false)
  | .scalar _ => some false

/-- Modelled from the spec: the external utility vectorized_is_in checks
row-local membership of each needle in the aligned haystack iterable. -/
def rowLocalIsIn (s : String) : Cell → Bool
  | .strList l => l.contains s
  | _ => false

/-- Embeds the Series.eq comparison of _check_equality_of_string_part: a
column comparator compares element-wise; a list literal also compares
element-wise but raises on a length mismatch; any other value compares as
a scalar against every element (a non-string scalar is equal to no
string). -/
def seriesEqComp (series : List String) (comparison_data : CompData) :
    Option (List Bool) :=
  match comparison_data with
  | .col cs => some (List.zipWith (fun s c => Cell.str s == c) series cs)
  | .scalar (.strList l) =>
    if l.length = series.length then
      some (List.zipWith (fun s t => s == t) series l)
    else none
  | .scalar c => some (series.map (fun s => Cell.str s == c))

/-- Embeds DataframeType._value_is_contained_by: row-local membership when
the comparison data is a column of iterables, otherwise Series.isin, which
accepts only list-like arguments (a scalar raises, modelled as none). -/
def value_is_contained_by (series : List String) (comparison_data : CompData) :
    Option (List Bool) :=
  match is_column_of_iterables comparison_data with
  | none => none
  | some true =>
    match comparison_data with
    | .col cs => some (List.zipWith rowLocalIsIn series cs)
    | .scalar _ => none
  | some false =>
    match comparison_data with
    | .col cs => some (series.map (fun s => cs.contains (Cell.str s)))
    | .scalar (.strList l) => some (series.map (fun s => l.contains s))
    | .scalar _ => none

/-- Embeds DataframeType.prefix_equal_to: compare the first prefixLen
characters of the target against the comparison data. -/
def DataframeType.prefix_equal_to (d : DataframeType) (a : Args) :
    Option (List Bool) :=
  let target := d.replacePfx a.target
  let comparator := d.effComparator a
  let comparison_data := d.get_comparator_data comparator a.value_is_literal
  match d.get_string_part_series "prefix" a.prefixLen target with
  | none => none
  | some series => seriesEqComp series comparison_data

/-- Embeds DataframeType.prefix_not_equal_to = ~prefix_equal_to. -/
def DataframeType.prefix_not_equal_to (d : DataframeType) (a : Args) :
    Option (List Bool) :=
  (d.prefix_equal_to a).map (List.map (fun b => !b))

/-- Embeds DataframeType.suffix_equal_to: compare the last suffixLen
characters of the target against the comparison data. -/
def DataframeType.suffix_equal_to (d : DataframeType) (a : Args) :
    Option (List Bool) :=
  let target := d.replacePfx a.target
  let comparator := d.effComparator a
  let comparison_data := d.get_comparator_data comparator a.value_is_literal
  match d.get_string_part_series "suffix" a.suffixLen target with
  | none => none
  | some series => seriesEqComp series comparison_data

/-- Embeds DataframeType.suffix_not_equal_to = ~suffix_equal_to. -/
def DataframeType.suffix_not_equal_to (d : DataframeType) (a : Args) :
    Option (List Bool) :=
  (d.suffix_equal_to a).map (List.map (fun b => !b))

/-- Embeds DataframeType.prefix_is_contained_by. -/
def DataframeType.prefix_is_contained_by (d : DataframeType) (a : Args) :
    Option (List Bool) :=
  let target := d.replacePfx a.target
  let comparator := d.effComparator a
  let comparison_data := d.get_comparator_data comparator a.value_is_literal
  match d.get_string_part_series "prefix" a.prefixLen target with
  | none => none
  | some series => value_is_contained_by series comparison_data

/-- Embeds DataframeType.prefix_is_not_contained_by = ~prefix_is_contained_by. -/
def DataframeType.prefix_is_not_contained_by (d : DataframeType) (a : Args) :
    Option (List Bool) :=
  (d.prefix_is_contained_by a).map (List.map (fun b => !b))

/-- Embeds DataframeType.suffix_is_contained_by. -/
def DataframeType.suffix_is_contained_by (d : DataframeType) (a : Args) :
    Option (List Bool) :=
  let target := d.replacePfx a.target
  let comparator := d.effComparator a
  let comparison_data := d.get_comparator_data comparator a.value_is_literal
  match d.get_string_part_series "suffix" a.suffixLen target with
  | none => none
  | some series => value_is_contained_by series comparison_data

/-- Embeds DataframeType.suffix_is_not_contained_by = ~suffix_is_contained_by. -/
def DataframeType.suffix_is_not_contained_by (d : DataframeType) (a : Args) :
    Option (List Bool) :=
  (d.suffix_is_contained_by a).map (List.map (fun b => !b))

/-- A total order used for pandas groupby key sorting; groupby sorts group
keys ascending. Cross-variant keys are ranked by constructor (pandas would
raise on incomparable mixtures; only same-variant keys are exercised). -/
def cellLeB : Cell → Cell → Bool
  | .null, _ => true
  | _, .null => false
  | .int a, .int b => a ≤ b
  | .int _, _ => true
  | _, .int _ => false
  | .str a, .str b => a ≤ b
  | .str _, _ => true
  | _, .str _ => false
  | .strList a, .strList b => a.length ≤ b.length

def insertSortedCell (c : Cell) : List Cell → List Cell
  | [] => [c]
  | x :: xs => if cellLeB c x then c :: x :: xs else x :: insertSortedCell c xs

def sortCells : List Cell → List Cell
  | [] => []
  | x :: xs => insertSortedCell x (sortCells xs)

/-- The distinct values of a list in order of first occurrence. -/
def dedupCells (cells : List Cell) : List Cell :=
  cells.foldl (fun acc c => if acc.contains c then acc else acc ++ [c]) []

/-- The group keys of a pandas groupby over the given column: distinct
non-null values, sorted ascending (groupby defaults sort=True and
dropna=True). -/
def groupKeys (gcol : List Cell) : List Cell :=
  sortCells (dedupCells (gcol.filter (fun c => !(c == Cell.null))))

/-- The row indices of one group, in original row order. -/
def groupRowIndices (gcol : List Cell) (key : Cell) : List Nat :=
  (List.range gcol.length).filter (fun i => gcol.get? i == some key)

/-- Embeds DataframeType.validate_series_length: groups longer than
min_length are all True; otherwise the result is min_length False entries
(not one per group row). -/
def validate_series_length (ser_length : Nat) (min_length : Int) : List Bool :=
  if (ser_length : Int) > min_length then List.replicate ser_length true
  else List.replicate min_length.toNat false

/-- The expression other_value.get("comparator") or 1: a falsy comparator
defaults to 1; a truthy non-integer comparator later fails the integer
comparison in validate_series_length, modelled as none. -/
def minCountOf (comparator : Cell) : Option Int :=
  if cellTruthy comparator then
    match comparator with
    | .int n => some n
    | _ => none
  else some 1

/-- Embeds DataframeType.present_on_multiple_rows_within: group the table
by the within column (sorted keys, null keys dropped), apply
validate_series_length to each group of the target, and explode the
per-group lists in group order. -/
def DataframeType.present_on_multiple_rows_within (d : DataframeType) (a : Args) :
    Option (List Bool) :=
  let target := d.replacePfx a.target
  let group_by_column := d.replacePfx a.within
  match d.value.get? group_by_column with
  | none => none
  | some gcol =>
    match d.value.get? target with
    | none => none
    | some _ =>
      let keys := groupKeys gcol
      match mapOpt (fun k => do
          let mc ← minCountOf a.comparator
          pure (validate_series_length (groupRowIndices gcol k).length mc)) keys with
      | none => none
      | some parts => some parts.flatten

/-- Embeds DataframeType.not_present_on_multiple_rows_within =
~present_on_multiple_rows_within. -/
def DataframeType.not_present_on_multiple_rows_within (d : DataframeType)
    (a : Args) : Option (List Bool) :=
  (d.present_on_multiple_rows_within a).map (List.map (fun b => !b))

/-- Embeds DataframeType.equals_string_part, including its mutation of the
wrapped table: the parsed comparison data is stored under a fresh
uuid-named column (parsed_id) that is never removed, and the clinical
equality check then runs against that column. The external regex parser
(apply_regex and vectorized_apply_regex) is a parameter; a scalar string
comparison value broadcasts over the rows. Returns the mask together with
the table as it is left after the call. -/
def DataframeType.parsedStringPartData (applyRegexFn : String → Cell → Cell)
    (d : DataframeType) (a : Args) : Option (List Cell) :=
  match d.get_comparator_data a.comparator a.value_is_literal with
  | .scalar (.str s) =>
    some (List.replicate d.value.nrows (applyRegexFn a.regex (.str s)))
  | .col cs => some (cs.map (applyRegexFn a.regex))
  | .scalar _ => none

def DataframeType.equals_string_part (applyRegexFn : String → Cell → Cell)
    (parsed_id : String) (d : DataframeType) (a : Args) :
    Option (List Bool × DataFrame) :=
  let target := d.replacePfx a.target
  match DataframeType.parsedStringPartData applyRegexFn d a with
  | none => none
  | some parsed_data =>
    let newdf : DataFrame := ⟨d.value.cols ++ [(parsed_id, parsed_data)]⟩
    match mapOpt
        (fun r => check_equality newdf r target (.str parsed_id) a.value_is_literal false)
        (List.range newdf.nrows) with
    | none => none
    | some mask => some (mask, newdf)

/-- Embeds DataframeType.does_not_equal_string_part = ~equals_string_part
(the inner call leaves its scratch column in place as well). -/
def DataframeType.does_not_equal_string_part (applyRegexFn : String → Cell → Cell)
    (parsed_id : String) (d : DataframeType) (a : Args) :
    Option (List Bool × DataFrame) :=
  (DataframeType.equals_string_part applyRegexFn parsed_id d a).map
    (fun p => (p.1.map (fun b => !b), p.2))

/-- Embeds NumericType.EPSILON = Decimal(0.000001); Decimal arithmetic is
exact, modelled over the rationals. -/
def EPSILON : ℚ := 1 / 1000000

/-- The numeric value wrapper: an exact decimal, modelled as a rational. -/
structure NumericType where
  value : ℚ
deriving Repr

/-- Embeds NumericType.equal_to: within EPSILON. -/
def NumericType.equal_to (a : NumericType) (other_numeric : ℚ) : Bool :=
  decide (|a.value - other_numeric| ≤ EPSILON)

/-- Embeds NumericType.not_equal_to: farther than EPSILON. -/
def NumericType.not_equal_to (a : NumericType) (other_numeric : ℚ) : Bool :=
  decide (|a.value - other_numeric| > EPSILON)

/-- Embeds NumericType.greater_than: (self - other) beyond EPSILON. -/
def NumericType.greater_than (a : NumericType) (other_numeric : ℚ) : Bool :=
  decide (a.value - other_numeric > EPSILON)

/-- Embeds NumericType.less_than: (other - self) beyond EPSILON. -/
def NumericType.less_than (a : NumericType) (other_numeric : ℚ) : Bool :=
  decide (other_numeric - a.value > EPSILON)

/-- Embeds NumericType.greater_than_or_equal_to = greater_than or equal_to. -/
def NumericType.greater_than_or_equal_to (a : NumericType) (other_numeric : ℚ) : Bool :=
  a.greater_than other_numeric || a.equal_to other_numeric

/-- Embeds NumericType.less_than_or_equal_to = less_than or equal_to. -/
def NumericType.less_than_or_equal_to (a : NumericType) (other_numeric : ℚ) : Bool :=
  a.less_than other_numeric || a.equal_to other_numeric

/-- A Python value as seen by the scalar wrapper constructors. -/
inductive PyVal where
  | none
  | int (n : Int)
  | bool (b : Bool)
  | str (s : String)
  | list (l : List PyVal)
deriving Repr

/-- Python truthiness of a payload. -/
def pyTruthy : PyVal → Bool
  | .none => false
  | .int n => n != 0
  | .bool b => b
  | .str s => s != ""
  | .list l => !l.isEmpty

/-- Whether the payload is a Python str. -/
def isPyStr : PyVal → Bool
  | .str _ => true
  | _ => false

/-- Embeds StringType._assert_valid_value_and_cast: value = value or ""
coerces every falsy payload to the empty string, then the isinstance
assertion rejects what remains non-string. -/
def StringType.assertValidValueAndCast (value : PyVal) : Except String String :=
  let value := if pyTruthy value then value else .str ""
  match value with
  | .str s => .ok s
  | _ => .error "is not a valid string type."

/-- Truthiness of the result of dict.get("extensible"): absent keys give
None, which is falsy. -/
def optTruthy : Option Bool → Bool
  | some b => b
  | Option.none => false

/-- Association-list lookup over the string keys of one codelist term map. -/
def assocLookup (m : List (String × TermMapEntry)) (k : String) :
    Option TermMapEntry :=
  (m.find? (fun p => p.1 == k)).map (fun p => p.2)

/-- The expression set(terms_list).issubset(allowed): a string iterates as
its characters; non-iterables raise, modelled as none. -/
def pySubsetOf (terms_list : Cell) (allowed : List String) : Option Bool :=
  match terms_list with
  | .strList ts => some (ts.all (fun t => allowed.contains t))
  | .str s => some (s.toList.all (fun ch => allowed.contains (String.mk [ch])))
  | _ => none

/-- Embeds DataframeType.valid_terms: a falsy codelist is valid outright;
otherwise fold over codelist_term_maps with
valid = valid or (extensible or issubset), where the Python or is lazy
(the subset test runs only when needed). A list-valued codelist is
unhashable and raises on the dict membership test. -/
def valid_terms_fold (codelist terms_list : Cell) (acc : Option Bool)
    (m : List (String × TermMapEntry)) : Option Bool :=
  match acc with
  | Option.none => Option.none
  | some valid =>
    match codelist with
    | .str c =>
      match assocLookup m c with
      | some entry =>
        if valid then some true
        else if optTruthy entry.extensible then some true
        else pySubsetOf terms_list (entry.allowed_terms.getD [])
      | Option.none => some valid
    | .strList _ => Option.none
    | _ => some valid

def DataframeType.valid_terms (d : DataframeType) (codelist : Cell)
    (terms_list : Cell) : Option Bool :=
  if !cellTruthy codelist then some true
  else d.codelist_term_maps.foldl (valid_terms_fold codelist terms_list) (some false)

/-- Embeds DataframeType.uses_valid_codelist_terms: row-wise valid_terms of
the codelist column against the terms column (both prefix-rewritten; a
non-string comparator is not a usable column key). -/
def DataframeType.uses_valid_codelist_terms (d : DataframeType) (a : Args) :
    Option (List Bool) :=
  let target := d.replacePfx a.target
  match d.cellReplacePfx a.comparator with
  | .str comparator =>
    match d.value.get? target, d.value.get? comparator with
    | some tcol, some ccol =>
      mapOpt (fun r =>
          match tcol.get? r, ccol.get? r with
          | some tv, some cv => d.valid_terms tv cv
          | _, _ => none)
        (List.range d.value.nrows)
    | _, _ => none
  | _ => none

/-- Embeds DataframeType.does_not_use_valid_codelist_terms =
~uses_valid_codelist_terms. -/
def DataframeType.does_not_use_valid_codelist_terms (d : DataframeType)
    (a : Args) : Option (List Bool) :=
  (d.uses_valid_codelist_terms a).map (List.map (fun b => !b))

/-- Modelled from the words of the spec, for refinement comparison with
replacePfx: a longest-match scan of the column_prefix_map keys against the
string start, substituting the mapped value once. -/
def replacePfxLongestSpec (d : DataframeType) (value : String) : String :=
  let hits := d.column_prefix_map.filter (fun p => strStartsWith value p.1)
  match hits.foldl
      (fun best p =>
        match best with
        | Option.none => some p
        | some q => if p.1.length > q.1.length then some p else some q)
      Option.none with
  | some p => p.2 ++ strDrop value p.1.length
  | Option.none => value

theorem strLower_ne_empty {t : String} (h : t ≠ "") : strLower t ≠ "" := by
  intro hc
  apply h
  cases t with
  | mk data =>
    cases data with
    | nil => rfl
    | cons c cs => simp [strLower, String.ext_iff] at hc

theorem DataFrame.get?_mem_cols {df : DataFrame} {c : String} {col : List Cell}
    (h : df.get? c = some col) : ∃ name, (name, col) ∈ df.cols := by
  unfold DataFrame.get? at h
  cases hf : df.cols.find? (fun p => p.1 == c) with
  | none => rw [hf] at h; simp at h
  | some p =>
    rw [hf] at h
    simp only [Option.map_some', Option.some.injEq] at h
    refine ⟨p.1, ?_⟩
    have hmem := List.mem_of_find?_eq_some hf
    rwa [← h, Prod.mk.eta]

theorem DataFrame.length_of_get? {df : DataFrame} {c : String} {col : List Cell}
    (hwf : df.WF) (h : df.get? c = some col) : col.length = df.nrows := by
  obtain ⟨name, hm⟩ := DataFrame.get?_mem_cols h
  exact hwf (name, col) hm

theorem DataFrame.cell?_eq_of_get? {df : DataFrame} {c : String} {col : List Cell}
    (h : df.get? c = some col) (r : Nat) : df.cell? c r = col.get? r := by
  unfold DataFrame.cell?
  rw [h]
  rfl

theorem List.get?_isSome_of_lt {l : List α} {r : Nat} (h : r < l.length) :
    (l.get? r).isSome := by
  cases hg : l.get? r with
  | none => exact absurd (List.get?_eq_none.mp hg) (Nat.not_le_of_lt h)
  | some a => rfl

theorem resolveComparison_isSome {df : DataFrame} (hwf : df.WF) {r : Nat}
    (hr : r < df.nrows) (comp : Cell) (lit : Bool) :
    (resolveComparison df r comp lit).isSome := by
  cases comp with
  | str c =>
    simp only [resolveComparison]
    by_cases hc : (!lit && df.hasCol c) = true
    · rw [if_pos hc]
      have hs : (df.get? c).isSome := (Bool.and_eq_true _ _).mp hc |>.2
      obtain ⟨col, hcol⟩ := Option.isSome_iff_exists.mp hs
      rw [DataFrame.cell?_eq_of_get? hcol]
      exact List.get?_isSome_of_lt (by rw [DataFrame.length_of_get? hwf hcol]; exact hr)
    · rw [if_neg hc]; rfl
  | int n => rfl
  | null => rfl
  | strList l => rfl

theorem lowerIfTruthy_isSome_of_strOrNull {c : Cell} (h : strOrNull c = true) :
    (lowerIfTruthy c).isSome := by
  cases c with
  | str s =>
    unfold lowerIfTruthy
    by_cases hs : cellTruthy (.str s) = true
    · rw [if_pos hs]; rfl
    · rw [if_neg hs]; rfl
  | int n => simp [strOrNull] at h
  | null => rfl
  | strList l => simp [strOrNull] at h

/-- Case-insensitive equality of two string-or-null cells: strings are
equal after lowercasing; null is equal only to null. -/
def ciEq : Cell → Cell → Bool
  | .str a, .str b => strLower a == strLower b
  | .null, .null => true
  | _, _ => false

theorem check_equality_eq {df : DataFrame} {r : Nat} {target : String}
    {comparator : Cell} {lit ci : Bool} {tcol : List Cell} {tv cv : Cell}
    (htc : df.get? target = some tcol)
    (htv : tcol.get? r = some tv)
    (hcv : resolveComparison df r comparator lit = some cv) :
    check_equality df r target comparator lit ci =
      (if isEmptyCell cv && isEmptyCell tv then some false
       else if ci then
         match lowerIfTruthy tv, lowerIfTruthy cv with
         | some tv2, some cv2 => some (tv2 == cv2)
         | _, _ => none
       else some (tv == cv)) := by
  simp only [check_equality, hcv, DataFrame.cell?_eq_of_get? htc, htv]

theorem check_inequality_eq {df : DataFrame} {r : Nat} {target : String}
    {comparator : Cell} {lit ci : Bool} {tcol : List Cell} {tv cv : Cell}
    (htc : df.get? target = some tcol)
    (htv : tcol.get? r = some tv)
    (hcv : resolveComparison df r comparator lit = some cv) :
    check_inequality df r target comparator lit ci =
      (if isEmptyCell cv && isEmptyCell tv then some false
       else if ci then
         match lowerIfTruthy tv, lowerIfTruthy cv with
         | some tv2, some cv2 => some (tv2 != cv2)
         | _, _ => none
       else some (tv != cv)) := by
  simp only [check_inequality, hcv, DataFrame.cell?_eq_of_get? htc, htv]

theorem lowerIfTruthy_vals {tv cv : Cell} (htv : strOrNull tv = true)
    (hcv : strOrNull cv = true)
    (hne : (isEmptyCell cv && isEmptyCell tv) = false) :
    ∃ tv2 cv2, lowerIfTruthy tv = some tv2 ∧ lowerIfTruthy cv = some cv2 ∧
      (tv2 == cv2) = ciEq tv cv := by
  cases tv with
  | str s =>
    cases cv with
    | str t =>
      by_cases hs : s = ""
      · subst hs
        have ht : t ≠ "" := by
          intro h
          subst h
          simp [isEmptyCell] at hne
        refine ⟨.null, .str (strLower t), ?_, ?_, ?_⟩
        · rfl
        · simp [lowerIfTruthy, cellTruthy, ht]
        · simp [ciEq]
          exact fun h => absurd h.symm (strLower_ne_empty ht)
      · by_cases ht : t = ""
        · subst ht
          refine ⟨.str (strLower s), .null, ?_, rfl, ?_⟩
          · simp [lowerIfTruthy, cellTruthy, hs]
          · simp [ciEq]
            exact strLower_ne_empty hs
        · refine ⟨.str (strLower s), .str (strLower t), ?_, ?_, ?_⟩
          · simp [lowerIfTruthy, cellTruthy, hs]
          · simp [lowerIfTruthy, cellTruthy, ht]
          · simp [ciEq]
    | null =>
      have hs : s ≠ "" := by
        intro h
        subst h
        simp [isEmptyCell] at hne
      refine ⟨.str (strLower s), .null, ?_, rfl, ?_⟩
      · simp [lowerIfTruthy, cellTruthy, hs]
      · simp [ciEq]
    | int n => simp [strOrNull] at hcv
    | strList l => simp [strOrNull] at hcv
  | null =>
    cases cv with
    | str t =>
      have ht : t ≠ "" := by
        intro h
        subst h
        simp [isEmptyCell] at hne
      refine ⟨.null, .str (strLower t), rfl, ?_, ?_⟩
      · simp [lowerIfTruthy, cellTruthy, ht]
      · simp [ciEq]
    | null => simp [isEmptyCell] at hne
    | int n => simp [strOrNull] at hcv
    | strList l => simp [strOrNull] at hcv
  | int n => simp [strOrNull] at htv
  | strList l => simp [strOrNull] at htv

theorem check_eq_isSome {df : DataFrame} {target : String} {comparator : Cell}
    {lit ci : Bool} {tcol : List Cell}
    (hwf : df.WF) (htc : df.get? target = some tcol)
    (hstr : ci = true → (∀ c ∈ tcol, strOrNull c = true) ∧
      (∀ i, i < df.nrows → ∀ c, resolveComparison df i comparator lit = some c →
        strOrNull c = true))
    {i : Nat} (hi : i < df.nrows) :
    (check_equality df i target comparator lit ci).isSome ∧
    (check_inequality df i target comparator lit ci).isSome := by
  obtain ⟨cv, hcv⟩ :=
    Option.isSome_iff_exists.mp (resolveComparison_isSome hwf hi comparator lit)
  have hlen : tcol.length = df.nrows := DataFrame.length_of_get? hwf htc
  obtain ⟨tv, htv⟩ :=
    Option.isSome_iff_exists.mp (List.get?_isSome_of_lt (l := tcol) (hlen ▸ hi))
  rw [check_equality_eq htc htv hcv, check_inequality_eq htc htv hcv]
  by_cases hbe : (isEmptyCell cv && isEmptyCell tv) = true
  · rw [if_pos hbe, if_pos hbe]
    exact ⟨rfl, rfl⟩
  · rw [if_neg hbe, if_neg hbe]
    rcases Bool.eq_false_or_eq_true ci with hci | hci
    · subst hci
      obtain ⟨h1, h2⟩ := hstr rfl
      have htvs : strOrNull tv = true := h1 tv (List.get?_mem htv)
      have hcvs : strOrNull cv = true := h2 i hi cv hcv
      obtain ⟨tv2, cv2, htv2, hcv2, _⟩ :=
        lowerIfTruthy_vals htvs hcvs (Bool.not_eq_true _ ▸ hbe)
      simp [htv2, hcv2]
    · subst hci
      simp

/-- C1: the clinical null rule of the dataframe equality operators: when
both the target cell and the resolved comparison value at a row are empty
(empty string or null), equal_to, not_equal_to and their case-insensitive
variants all return false at that row; otherwise equal_to returns whether
the two values are equal, not_equal_to whether they differ, and the
case-insensitive variants compare after lowercasing. -/
theorem C1_clinical_null_equality
    (d : DataframeType) (a : Args) (r : Nat) (tcol : List Cell) (tv cv : Cell)
    (hwf : d.value.WF)
    (hr : r < d.value.nrows)
    (htc : d.value.get? (d.replacePfx a.target) = some tcol)
    (htstr : ∀ c ∈ tcol, strOrNull c = true)
    (hcomp : ∀ i, i < d.value.nrows → ∀ c, d.resolvedComp a i = some c →
      strOrNull c = true)
    (htv : tcol.get? r = some tv)
    (hcv : d.resolvedComp a r = some cv) :
    ((isEmptyCell cv && isEmptyCell tv) = true →
      (d.equal_to a).bind (fun m => m.get? r) = some false ∧
      (d.not_equal_to a).bind (fun m => m.get? r) = some false ∧
      (d.equal_to_case_insensitive a).bind (fun m => m.get? r) = some false ∧
      (d.not_equal_to_case_insensitive a).bind (fun m => m.get? r) = some false) ∧
    ((isEmptyCell cv && isEmptyCell tv) = false →
      (d.equal_to a).bind (fun m => m.get? r) = some (tv == cv) ∧
      (d.not_equal_to a).bind (fun m => m.get? r) = some (!(tv == cv)) ∧
      (d.equal_to_case_insensitive a).bind (fun m => m.get? r) = some (ciEq tv cv) ∧
      (d.not_equal_to_case_insensitive a).bind (fun m => m.get? r) =
        some (!(ciEq tv cv))) := by
  have hstrh : ∀ ci : Bool, ci = true → (∀ c ∈ tcol, strOrNull c = true) ∧
      (∀ i, i < d.value.nrows → ∀ c,
        resolveComparison d.value i (d.effComparator a) a.value_is_literal = some c →
        strOrNull c = true) :=
    fun _ _ => ⟨htstr, fun i hi c hc => hcomp i hi c hc⟩
  obtain ⟨ys1, hys1⟩ := mapOpt_eq_some_of_forall
    (fun i => check_equality d.value i (d.replacePfx a.target)
      (d.effComparator a) a.value_is_literal false)
    (List.range d.value.nrows)
    (fun x hx => (check_eq_isSome hwf htc (hstrh false) (List.mem_range.mp hx)).1)
  obtain ⟨ys2, hys2⟩ := mapOpt_eq_some_of_forall
    (fun i => check_inequality d.value i (d.replacePfx a.target)
      (d.effComparator a) a.value_is_literal false)
    (List.range d.value.nrows)
    (fun x hx => (check_eq_isSome hwf htc (hstrh false) (List.mem_range.mp hx)).2)
  obtain ⟨ys3, hys3⟩ := mapOpt_eq_some_of_forall
    (fun i => check_equality d.value i (d.replacePfx a.target)
      (d.effComparator a) a.value_is_literal true)
    (List.range d.value.nrows)
    (fun x hx => (check_eq_isSome hwf htc (hstrh true) (List.mem_range.mp hx)).1)
  obtain ⟨ys4, hys4⟩ := mapOpt_eq_some_of_forall
    (fun i => check_inequality d.value i (d.replacePfx a.target)
      (d.effComparator a) a.value_is_literal true)
    (List.range d.value.nrows)
    (fun x hx => (check_eq_isSome hwf htc (hstrh true) (List.mem_range.mp hx)).2)
  have hg1 := mapOpt_get? hys1 (List.get?_range hr)
  have hg2 := mapOpt_get? hys2 (List.get?_range hr)
  have hg3 := mapOpt_get? hys3 (List.get?_range hr)
  have hg4 := mapOpt_get? hys4 (List.get?_range hr)
  rw [check_equality_eq htc htv hcv] at hg1 hg3
  rw [check_inequality_eq htc htv hcv] at hg2 hg4
  simp only [DataframeType.equal_to, DataframeType.not_equal_to,
    DataframeType.equal_to_case_insensitive,
    DataframeType.not_equal_to_case_insensitive, hys1, hys2, hys3, hys4,
    Option.some_bind]
  constructor
  · intro hbe
    rw [if_pos hbe] at hg1 hg2 hg3 hg4
    exact ⟨hg1, hg2, hg3, hg4⟩
  · intro hbe
    rw [if_neg (by rw [hbe]; exact Bool.false_ne_true)] at hg1 hg2 hg3 hg4
    have htvs : strOrNull tv = true := htstr tv (List.get?_mem htv)
    have hcvs : strOrNull cv = true := hcomp r hr cv hcv
    obtain ⟨tv2, cv2, htv2, hcv2, hee⟩ := lowerIfTruthy_vals htvs hcvs hbe
    simp only [if_true, if_false, htv2, hcv2] at hg3 hg4
    refine ⟨by simpa using hg1, by simpa using hg2, ?_, ?_⟩
    · rw [hg3, hee]
    · rw [hg4]
      have : (tv2 != cv2) = !(tv2 == cv2) := rfl
      rw [this, hee]

/-- Witness for C1 at a concrete table: row 1 has both operands empty,
row 0 and row 2 are populated. -/
theorem C1_witness :
    ((DataframeType.equal_to
        ⟨⟨[("A", [.str "x", .str "", .str "x"]), ("B", [.str "x", .str "", .str "y"])]⟩,
          [], []⟩
        ⟨"A", .str "B", false, "", "", 0, 0⟩).bind (fun m => m.get? 1) = some false) ∧
    ((DataframeType.not_equal_to
        ⟨⟨[("A", [.str "x", .str "", .str "x"]), ("B", [.str "x", .str "", .str "y"])]⟩,
          [], []⟩
        ⟨"A", .str "B", false, "", "", 0, 0⟩).bind (fun m => m.get? 1) = some false) := by
  have h := C1_clinical_null_equality
    ⟨⟨[("A", [.str "x", .str "", .str "x"]), ("B", [.str "x", .str "", .str "y"])]⟩, [], []⟩
    ⟨"A", .str "B", false, "", "", 0, 0⟩ 1
    [.str "x", .str "", .str "x"] (.str "") (.str "")
    (by intro p hp; fin_cases hp <;> rfl)
    (by decide)
    (by rfl)
    (by intro c hc; fin_cases hc <;> rfl)
    (by decide)
    (by rfl)
    (by rfl)
  obtain ⟨h1, h2, _, _⟩ := h.1 rfl
  exact ⟨h1, h2⟩

/-- C2 counterexample: on a one-row table whose target cell is empty,
compared against the empty literal, equal_to and not_equal_to both return
[false], so equal_to is not the element-wise complement of not_equal_to. -/
theorem C2_counterexample :
    DataframeType.equal_to ⟨⟨[("A", [.str ""])]⟩, [], []⟩
        ⟨"A", .str "", true, "", "", 0, 0⟩ ≠
      (DataframeType.not_equal_to ⟨⟨[("A", [.str ""])]⟩, [], []⟩
        ⟨"A", .str "", true, "", "", 0, 0⟩).map (List.map (fun b => !b)) := by
  decide

/-- C2 (amended): every dual implemented as an element-wise complement
satisfies F = not not_F (exists, regex match, string-part equality and
containment, group cardinality, string-part parsing, codelist terms); for
equal_to and not_equal_to (and the case-insensitive pair) the complement
identity holds exactly at the rows where not both operands are empty — at
a row where both are empty the two operators both return false. -/
theorem C2_dual_complement :
    (∀ (d : DataframeType) (a : Args),
      d.not_existsOp a = (d.existsOp a).map (fun b => !b)) ∧
    (∀ (d : DataframeType) (a : Args),
      d.not_matches_regex a = (d.matches_regex a).map (List.map (fun b => !b))) ∧
    (∀ (d : DataframeType) (a : Args),
      d.prefix_not_equal_to a = (d.prefix_equal_to a).map (List.map (fun b => !b))) ∧
    (∀ (d : DataframeType) (a : Args),
      d.suffix_not_equal_to a = (d.suffix_equal_to a).map (List.map (fun b => !b))) ∧
    (∀ (d : DataframeType) (a : Args),
      d.prefix_is_not_contained_by a =
        (d.prefix_is_contained_by a).map (List.map (fun b => !b))) ∧
    (∀ (d : DataframeType) (a : Args),
      d.suffix_is_not_contained_by a =
        (d.suffix_is_contained_by a).map (List.map (fun b => !b))) ∧
    (∀ (d : DataframeType) (a : Args),
      d.not_present_on_multiple_rows_within a =
        (d.present_on_multiple_rows_within a).map (List.map (fun b => !b))) ∧
    (∀ (d : DataframeType) (a : Args),
      d.does_not_use_valid_codelist_terms a =
        (d.uses_valid_codelist_terms a).map (List.map (fun b => !b))) ∧
    (∀ (f : String → Cell → Cell) (pid : String) (d : DataframeType) (a : Args),
      DataframeType.does_not_equal_string_part f pid d a =
        (DataframeType.equals_string_part f pid d a).map
          (fun p => (p.1.map (fun b => !b), p.2))) ∧
    (∀ (d : DataframeType) (a : Args) (r : Nat) (tcol : List Cell) (tv cv : Cell),
      d.value.WF → r < d.value.nrows →
      d.value.get? (d.replacePfx a.target) = some tcol →
      (∀ c ∈ tcol, strOrNull c = true) →
      (∀ i, i < d.value.nrows → ∀ c, d.resolvedComp a i = some c →
        strOrNull c = true) →
      tcol.get? r = some tv → d.resolvedComp a r = some cv →
      (isEmptyCell cv && isEmptyCell tv) = false →
      (∃ b, (d.equal_to a).bind (fun m => m.get? r) = some b ∧
        (d.not_equal_to a).bind (fun m => m.get? r) = some (!b)) ∧
      (∃ b, (d.equal_to_case_insensitive a).bind (fun m => m.get? r) = some b ∧
        (d.not_equal_to_case_insensitive a).bind (fun m => m.get? r) =
          some (!b))) := by
  refine ⟨fun _ _ => rfl, fun _ _ => rfl, fun _ _ => rfl, fun _ _ => rfl,
    fun _ _ => rfl, fun _ _ => rfl, fun _ _ => rfl, fun _ _ => rfl,
    fun _ _ _ _ => rfl, ?_⟩
  intro d a r tcol tv cv hwf hr htc htstr hcomp htv hcv hbe
  have hstrh : ∀ ci : Bool, ci = true → (∀ c ∈ tcol, strOrNull c = true) ∧
      (∀ i, i < d.value.nrows → ∀ c,
        resolveComparison d.value i (d.effComparator a) a.value_is_literal = some c →
        strOrNull c = true) :=
    fun _ _ => ⟨htstr, fun i hi c hc => hcomp i hi c hc⟩
  obtain ⟨ys1, hys1⟩ := mapOpt_eq_some_of_forall
    (fun i => check_equality d.value i (d.replacePfx a.target)
      (d.effComparator a) a.value_is_literal false)
    (List.range d.value.nrows)
    (fun x hx => (check_eq_isSome hwf htc (hstrh false) (List.mem_range.mp hx)).1)
  obtain ⟨ys2, hys2⟩ := mapOpt_eq_some_of_forall
    (fun i => check_inequality d.value i (d.replacePfx a.target)
      (d.effComparator a) a.value_is_literal false)
    (List.range d.value.nrows)
    (fun x hx => (check_eq_isSome hwf htc (hstrh false) (List.mem_range.mp hx)).2)
  obtain ⟨ys3, hys3⟩ := mapOpt_eq_some_of_forall
    (fun i => check_equality d.value i (d.replacePfx a.target)
      (d.effComparator a) a.value_is_literal true)
    (List.range d.value.nrows)
    (fun x hx => (check_eq_isSome hwf htc (hstrh true) (List.mem_range.mp hx)).1)
  obtain ⟨ys4, hys4⟩ := mapOpt_eq_some_of_forall
    (fun i => check_inequality d.value i (d.replacePfx a.target)
      (d.effComparator a) a.value_is_literal true)
    (List.range d.value.nrows)
    (fun x hx => (check_eq_isSome hwf htc (hstrh true) (List.mem_range.mp hx)).2)
  have hg1 := mapOpt_get? hys1 (List.get?_range hr)
  have hg2 := mapOpt_get? hys2 (List.get?_range hr)
  have hg3 := mapOpt_get? hys3 (List.get?_range hr)
  have hg4 := mapOpt_get? hys4 (List.get?_range hr)
  rw [check_equality_eq htc htv hcv] at hg1 hg3
  rw [check_inequality_eq htc htv hcv] at hg2 hg4
  rw [if_neg (by rw [hbe]; exact Bool.false_ne_true)] at hg1 hg2 hg3 hg4
  have htvs : strOrNull tv = true := htstr tv (List.get?_mem htv)
  have hcvs : strOrNull cv = true := hcomp r hr cv hcv
  obtain ⟨tv2, cv2, htv2, hcv2, hee⟩ := lowerIfTruthy_vals htvs hcvs hbe
  simp only [if_true, if_false, htv2, hcv2] at hg3 hg4
  simp only [DataframeType.equal_to, DataframeType.not_equal_to,
    DataframeType.equal_to_case_insensitive,
    DataframeType.not_equal_to_case_insensitive, hys1, hys2, hys3, hys4,
    Option.some_bind]
  constructor
  · refine ⟨tv == cv, by simpa using hg1, ?_⟩
    rw [hg2]
    rfl
  · refine ⟨tv2 == cv2, hg3, ?_⟩
    rw [hg4]
    rfl

/-- Witness for C2 (amended) at a concrete table and populated row. -/
theorem C2_witness :
    (∃ b, (DataframeType.equal_to ⟨⟨[("A", [.str "x"]), ("B", [.str "y"])]⟩, [], []⟩
        ⟨"A", .str "B", false, "", "", 0, 0⟩).bind (fun m => m.get? 0) = some b ∧
      (DataframeType.not_equal_to ⟨⟨[("A", [.str "x"]), ("B", [.str "y"])]⟩, [], []⟩
        ⟨"A", .str "B", false, "", "", 0, 0⟩).bind (fun m => m.get? 0) =
        some (!b)) := by
  have h := C2_dual_complement.2.2.2.2.2.2.2.2.2
    ⟨⟨[("A", [.str "x"]), ("B", [.str "y"])]⟩, [], []⟩
    ⟨"A", .str "B", false, "", "", 0, 0⟩ 0 [.str "x"] (.str "x") (.str "y")
    (by intro p hp; fin_cases hp <;> rfl)
    (by decide)
    (by rfl)
    (by intro c hc; fin_cases hc <;> rfl)
    (by
      intro i hi c hc
      have hi0 : i = 0 := Nat.lt_one_iff.mp hi
      subst hi0
      have hval : DataframeType.resolvedComp
          ⟨⟨[("A", [.str "x"]), ("B", [.str "y"])]⟩, [], []⟩
          ⟨"A", .str "B", false, "", "", 0, 0⟩ 0 = some (Cell.str "y") := rfl
      rw [hval] at hc
      cases hc
      rfl)
    (by rfl)
    (by rfl)
    (by rfl)
  exact h.1

/-- C3: the mask-length invariant fails for
present_on_multiple_rows_within: on a one-row table with comparator
(minimum group size) 2, the returned mask has length 2, not 1. The code
pads with min_length false entries instead of one per group row. -/
theorem C3_mask_length_bug :
    DataframeType.present_on_multiple_rows_within
        ⟨⟨[("A", [.str "a"]), ("G", [.str "g"])]⟩, [], []⟩
        ⟨"A", .int 2, false, "G", "", 0, 0⟩ = some [false, false] ∧
    DataFrame.nrows ⟨[("A", [.str "a"]), ("G", [.str "g"])]⟩ = 1 := by
  constructor
  · decide
  · rfl

/-- C6 counterexample: on the cell "ab" with pattern "b", an unanchored
search finds the pattern, but the operator returns false: matches_regex is
not an unanchored search. -/
theorem C6_counterexample :
    ¬ ((DataframeType.matches_regex ⟨⟨[("A", [.str "ab"])]⟩, [], []⟩
        ⟨"A", .str "b", false, "", "", 0, 0⟩).bind (fun m => m.get? 0) =
      some (reSearch "b" "ab")) := by
  decide

/-- C6 (amended): the dataframe matches_regex is anchored at the start of
each cell (pandas str.match semantics): a row is true iff the pattern
matches at the beginning of the cell, for literal patterns iff the pattern
is a prefix of the cell. -/
theorem C6_matches_regex_anchored
    (d : DataframeType) (a : Args) (r : Nat) (col : List Cell) (pat s : String)
    (htc : d.value.get? (d.replacePfx a.target) = some col)
    (hpat : a.comparator = .str pat)
    (hcells : ∀ c ∈ col, (cellAsStr? c).isSome)
    (hs : col.get? r = some (.str s)) :
    (d.matches_regex a).bind (fun m => m.get? r) = some (reMatch pat s) := by
  obtain ⟨ys, hys⟩ := mapOpt_eq_some_of_forall
    (fun c => (cellAsStr? c).map (fun t => reMatch pat t)) col
    (fun x hx => by
      obtain ⟨t, ht⟩ := Option.isSome_iff_exists.mp (hcells x hx)
      simp [ht])
  have hpat2 : cellAsStr? a.comparator = some pat := by rw [hpat]; rfl
  simp only [DataframeType.matches_regex, htc, hpat2, hys, Option.some_bind]
  rw [mapOpt_get? hys hs]
  rfl

/-- Witness for C6 (amended): pattern "b" at the start of cell "ba". -/
theorem C6_witness :
    (DataframeType.matches_regex ⟨⟨[("A", [.str "ba"])]⟩, [], []⟩
      ⟨"A", .str "b", false, "", "", 0, 0⟩).bind (fun m => m.get? 0) =
      some true := by
  have h := C6_matches_regex_anchored ⟨⟨[("A", [.str "ba"])]⟩, [], []⟩
    ⟨"A", .str "b", false, "", "", 0, 0⟩ 0 [.str "ba"] "b" "ba"
    (by rfl) (by rfl) (by intro c hc; fin_cases hc <;> rfl) (by rfl)
  rw [h]
  decide

theorem find?_of_prefix_miss {l1 l2 : List α} {p : α → Bool}
    (h : ∀ x ∈ l1, p x = false) : (l1 ++ l2).find? p = l2.find? p := by
  induction l1 with
  | nil => rfl
  | cons x xs ih =>
    have hx := h x (List.mem_cons_self x xs)
    simp only [List.cons_append, List.find?, hx]
    exact ih (fun y hy => h y (List.mem_cons_of_mem x hy))

/-- C7 counterexample: with column_prefix_map iterating [("--", "AE"),
("--DE", "XX")], the value "--DECOD" rewrites through the first matching
key "--" to "AEDECOD", while a longest-match scan would pick "--DE" and
produce "XXCOD": replace_prefix is not a longest-match scan. -/
theorem C7_counterexample :
    DataframeType.replacePfx ⟨⟨[]⟩, [("--", "AE"), ("--DE", "XX")], []⟩ "--DECOD" ≠
      replacePfxLongestSpec ⟨⟨[]⟩, [("--", "AE"), ("--DE", "XX")], []⟩ "--DECOD" := by
  decide

/-- C7 (amended): replace_prefix scans the column_prefix_map keys in the
map iteration (insertion) order, substitutes the mapped replacement at the
first key that is a prefix of the string (a single replacement at the
front), leaves strings matching no key unchanged, and is never applied to
literal comparator values. -/
theorem C7_replace_prefix_first_match :
    (∀ (d : DataframeType) (v : String) (m1 m2 : List (String × String))
      (p r : String),
      d.column_prefix_map = m1 ++ (p, r) :: m2 →
      (∀ q ∈ m1, strStartsWith v q.1 = false) →
      strStartsWith v p = true →
      d.replacePfx v = r ++ strDrop v p.length) ∧
    (∀ (d : DataframeType) (v : String),
      (∀ q ∈ d.column_prefix_map, strStartsWith v q.1 = false) →
      d.replacePfx v = v) ∧
    (∀ (d : DataframeType) (c : Cell),
      d.get_comparator_data c true = CompData.scalar c) ∧
    (∀ (d : DataframeType) (a : Args), a.value_is_literal = true →
      d.effComparator a = a.comparator) := by
  refine ⟨?_, ?_, fun d c => rfl, ?_⟩
  · intro d v m1 m2 p r hmap hmiss hhit
    unfold DataframeType.replacePfx
    rw [hmap, find?_of_prefix_miss (fun q hq => hmiss q hq)]
    have hfind : List.find? (fun q => strStartsWith v q.1) ((p, r) :: m2) =
        some (p, r) := List.find?_cons_of_pos _ (by exact hhit)
    rw [hfind]
  · intro d v hmiss
    unfold DataframeType.replacePfx
    rw [List.find?_eq_none.mpr (fun q hq => by rw [hmiss q hq]; exact Bool.false_ne_true)]
  · intro d a h
    unfold DataframeType.effComparator
    rw [h]
    rfl

/-- Witness for C7 (amended) at a concrete map and values. -/
theorem C7_witness :
    DataframeType.replacePfx ⟨⟨[]⟩, [("ZZ", "Q"), ("--", "AE")], []⟩ "--DECOD" =
        "AE" ++ strDrop "--DECOD" 2 ∧
    DataframeType.replacePfx ⟨⟨[]⟩, [("ZZ", "Q"), ("--", "AE")], []⟩ "XYZ" = "XYZ" := by
  constructor
  · exact C7_replace_prefix_first_match.1
      ⟨⟨[]⟩, [("ZZ", "Q"), ("--", "AE")], []⟩ "--DECOD" [("ZZ", "Q")] [] "--" "AE"
      rfl (by intro q hq; fin_cases hq <;> rfl) (by decide)
  · exact C7_replace_prefix_first_match.2.1
      ⟨⟨[]⟩, [("ZZ", "Q"), ("--", "AE")], []⟩ "XYZ"
      (by intro q hq; fin_cases hq <;> decide)

/-- C5: NumericType predicates are the epsilon comparisons of the spec:
equality within 1e-6, inequality beyond it (the complement), strict
orderings beyond epsilon, the or-equal variants as disjunctions with
equality; equal_to(a+1e-6) holds and equal_to(a+1e-5) does not. -/
theorem C5_numeric_epsilon (a : NumericType) (v : ℚ) :
    (a.equal_to v = true ↔ |a.value - v| ≤ 1 / 1000000) ∧
    (a.not_equal_to v = true ↔ |a.value - v| > 1 / 1000000) ∧
    (a.not_equal_to v = !a.equal_to v) ∧
    (a.greater_than v = true ↔ a.value - v > 1 / 1000000) ∧
    (a.less_than v = true ↔ v - a.value > 1 / 1000000) ∧
    (a.greater_than_or_equal_to v = (a.greater_than v || a.equal_to v)) ∧
    (a.less_than_or_equal_to v = (a.less_than v || a.equal_to v)) ∧
    (a.equal_to (a.value + 1 / 1000000) = true) ∧
    (a.equal_to (a.value + 1 / 100000) = false) := by
  refine ⟨?_, ?_, ?_, ?_, ?_, rfl, rfl, ?_, ?_⟩
  · simp [NumericType.equal_to, EPSILON]
  · simp [NumericType.not_equal_to, EPSILON]
  · unfold NumericType.not_equal_to NumericType.equal_to
    by_cases h : |a.value - v| ≤ EPSILON
    · rw [decide_eq_false (not_lt.mpr h), decide_eq_true h]; rfl
    · rw [decide_eq_true (not_le.mp h), decide_eq_false h]; rfl
  · simp [NumericType.greater_than, EPSILON]
  · simp [NumericType.less_than, EPSILON]
  · unfold NumericType.equal_to EPSILON
    rw [show a.value - (a.value + 1 / 1000000) = -(1 / 1000000 : ℚ) by ring, abs_neg,
      abs_of_pos (by norm_num : (0 : ℚ) < 1 / 1000000)]
    exact decide_eq_true (le_refl _)
  · unfold NumericType.equal_to EPSILON
    rw [show a.value - (a.value + 1 / 100000) = -(1 / 100000 : ℚ) by ring, abs_neg,
      abs_of_pos (by norm_num : (0 : ℚ) < 1 / 100000)]
    exact decide_eq_false (by norm_num)

/-- C9: StringType construction coerces every falsy payload (None, 0,
False, the empty list, the empty string) to the empty string; truthy
non-string payloads fail the type assertion; truthy strings pass through. -/
theorem C9_stringtype_falsy :
    (StringType.assertValidValueAndCast .none = .ok "") ∧
    (StringType.assertValidValueAndCast (.int 0) = .ok "") ∧
    (StringType.assertValidValueAndCast (.bool false) = .ok "") ∧
    (StringType.assertValidValueAndCast (.list []) = .ok "") ∧
    (StringType.assertValidValueAndCast (.str "") = .ok "") ∧
    (∀ v, pyTruthy v = false → StringType.assertValidValueAndCast v = .ok "") ∧
    (∀ v, pyTruthy v = true → isPyStr v = false →
      ∃ e, StringType.assertValidValueAndCast v = .error e) ∧
    (∀ s, s ≠ "" → StringType.assertValidValueAndCast (.str s) = .ok s) := by
  refine ⟨rfl, rfl, rfl, rfl, rfl, ?_, ?_, ?_⟩
  · intro v hv
    unfold StringType.assertValidValueAndCast
    rw [hv]
    rfl
  · intro v hv hs
    unfold StringType.assertValidValueAndCast
    rw [hv]
    simp only [if_true]
    cases v with
    | str s => simp [isPyStr] at hs
    | none => exact ⟨_, rfl⟩
    | int n => exact ⟨_, rfl⟩
    | bool b => exact ⟨_, rfl⟩
    | list l => exact ⟨_, rfl⟩
  · intro s hs
    unfold StringType.assertValidValueAndCast
    have : pyTruthy (.str s) = true := by
      simp [pyTruthy]
      exact hs
    rw [this]
    rfl

theorem find?_append_of_isSome {l1 l2 : List α} {p : α → Bool}
    (h : (l1.find? p).isSome) : (l1 ++ l2).find? p = l1.find? p := by
  induction l1 with
  | nil => simp at h
  | cons x xs ih =>
    by_cases hx : p x = true
    · rw [List.cons_append, List.find?_cons_of_pos _ hx, List.find?_cons_of_pos _ hx]
    · rw [List.cons_append, List.find?_cons_of_neg _ hx, List.find?_cons_of_neg _ hx]
      exact ih (by rwa [List.find?_cons_of_neg _ hx] at h)

theorem DataFrame.get?_append {cols extra : List (String × List Cell)}
    {c : String} (h : (DataFrame.mk cols).hasCol c = true) :
    (DataFrame.mk (cols ++ extra)).get? c = (DataFrame.mk cols).get? c := by
  have hfind : (List.find? (fun p => p.1 == c) cols).isSome := by
    unfold DataFrame.hasCol DataFrame.get? at h
    cases hf : List.find? (fun p => p.1 == c) cols with
    | none => rw [hf] at h; simp at h
    | some p => rfl
  unfold DataFrame.get?
  rw [show (DataFrame.mk (cols ++ extra)).cols = cols ++ extra from rfl,
    show (DataFrame.mk cols).cols = cols from rfl,
    find?_append_of_isSome hfind]

/-- C4 counterexample: equals_string_part does not remove its scratch
column: after the call the table has a third column named by the fresh id,
so the set of columns is not unchanged. -/
theorem C4_counterexample :
    (DataframeType.equals_string_part (fun _ c => c) "scratch1"
        ⟨⟨[("A", [.str "x"]), ("B", [.str "x"])]⟩, [], []⟩
        ⟨"A", .str "B", false, "", ".*", 0, 0⟩).map (fun p => p.2.colNames) =
      some ["A", "B", "scratch1"] ∧
    ["A", "B", "scratch1"] ≠
      DataFrame.colNames ⟨[("A", [.str "x"]), ("B", [.str "x"])]⟩ := by
  constructor
  · decide
  · decide

/-- C4 (amended): equals_string_part leaves the values of all existing
columns unchanged, but appends its uuid-named scratch column to the table
without removing it, so after the call the column set has grown by that
one column (the within-except-last-row operators leak their scratch column
in the same way). -/
theorem C4_scratch_column_leak (f : String → Cell → Cell) (pid : String)
    (d : DataframeType) (a : Args) (res : List Bool × DataFrame)
    (h : DataframeType.equals_string_part f pid d a = some res) :
    (∃ parsed, res.2.cols = d.value.cols ++ [(pid, parsed)]) ∧
    res.2.colNames = d.value.colNames ++ [pid] ∧
    res.2.colNames ≠ d.value.colNames ∧
    (∀ c, d.value.hasCol c = true → res.2.get? c = d.value.get? c) := by
  unfold DataframeType.equals_string_part at h
  cases hp : DataframeType.parsedStringPartData f d a with
  | none => rw [hp] at h; simp at h
  | some parsed_data =>
    rw [hp] at h
    simp only at h
    cases hm : mapOpt
        (fun r => check_equality ⟨d.value.cols ++ [(pid, parsed_data)]⟩ r
          (d.replacePfx a.target) (.str pid) a.value_is_literal false)
        (List.range (DataFrame.nrows ⟨d.value.cols ++ [(pid, parsed_data)]⟩)) with
    | none => rw [hm] at h; simp at h
    | some mask =>
      rw [hm] at h
      simp only [Option.some.injEq] at h
      subst h
      refine ⟨⟨parsed_data, rfl⟩, ?_, ?_, ?_⟩
      · show List.map _ (d.value.cols ++ [(pid, parsed_data)]) = _
        rw [List.map_append]
        rfl
      · show List.map _ (d.value.cols ++ [(pid, parsed_data)]) ≠ _
        rw [List.map_append]
        intro heq
        have hlen := congrArg List.length heq
        simp [DataFrame.colNames] at hlen
      · intro c hc
        show (DataFrame.mk (d.value.cols ++ [(pid, parsed_data)])).get? c = _
        have hc2 : (DataFrame.mk d.value.cols).hasCol c = true := hc
        rw [DataFrame.get?_append hc2]

/-- Witness for C4 (amended) at a concrete table and identity regex
parser. -/
theorem C4_witness :
    DataFrame.colNames ⟨[("A", [.str "x"]), ("B", [.str "x"]), ("u1", [.str "x"])]⟩ =
      DataFrame.colNames ⟨[("A", [.str "x"]), ("B", [.str "x"])]⟩ ++ ["u1"] := by
  have h := C4_scratch_column_leak (fun _ c => c) "u1"
    ⟨⟨[("A", [.str "x"]), ("B", [.str "x"])]⟩, [], []⟩
    ⟨"A", .str "B", false, "", ".*", 0, 0⟩
    ([true], ⟨[("A", [.str "x"]), ("B", [.str "x"]), ("u1", [.str "x"])]⟩)
    (by decide)
  exact h.2.1

/-- C8: each of the four string-part operators (prefix_equal_to,
suffix_equal_to, prefix_is_contained_by, suffix_is_contained_by) fails
with the type error of _get_string_part_series as soon as any cell of the
target column is a non-string value; the error aborts the call with no
partial result. -/
theorem C8_string_part_type_error
    (d : DataframeType) (a : Args) (col : List Cell) (bad : Cell)
    (htc : d.value.get? (d.replacePfx a.target) = some col)
    (hmem : bad ∈ col) (hbad : cellAsStr? bad = none) :
    d.prefix_equal_to a = none ∧ d.suffix_equal_to a = none ∧
    d.prefix_is_contained_by a = none ∧ d.suffix_is_contained_by a = none := by
  have hmap : mapOpt cellAsStr? col = none := mapOpt_eq_none_of_mem hmem hbad
  have hser : ∀ part len,
      d.get_string_part_series part len (d.replacePfx a.target) = none := by
    intro part len
    simp only [DataframeType.get_string_part_series, htc, hmap]
  refine ⟨?_, ?_, ?_, ?_⟩
  · simp only [DataframeType.prefix_equal_to, hser]
  · simp only [DataframeType.suffix_equal_to, hser]
  · simp only [DataframeType.prefix_is_contained_by, hser]
  · simp only [DataframeType.suffix_is_contained_by, hser]

/-- Witness for C8 on a table whose target column holds an integer cell. -/
theorem C8_witness :
    DataframeType.prefix_equal_to ⟨⟨[("A", [.int 5])]⟩, [], []⟩
        ⟨"A", .str "x", true, "", "", 1, 1⟩ = none ∧
    DataframeType.suffix_is_contained_by ⟨⟨[("A", [.int 5])]⟩, [], []⟩
        ⟨"A", .str "x", true, "", "", 1, 1⟩ = none := by
  have h := C8_string_part_type_error ⟨⟨[("A", [.int 5])]⟩, [], []⟩
    ⟨"A", .str "x", true, "", "", 1, 1⟩ [.int 5] (.int 5)
    (by rfl) (by simp) (by rfl)
  exact ⟨h.1, h.2.2.2⟩

theorem foldl_valid_terms_none {maps : List (List (String × TermMapEntry))}
    {c : String} {terms : Cell} (h : ∀ m ∈ maps, assocLookup m c = none)
    (v : Bool) :
    maps.foldl (valid_terms_fold (.str c) terms) (some v) = some v := by
  induction maps with
  | nil => rfl
  | cons m rest ih =>
    have hm := h m (List.mem_cons_self m rest)
    have hstep : valid_terms_fold (.str c) terms (some v) m = some v := by
      simp only [valid_terms_fold, hm]
    rw [List.foldl_cons, hstep]
    exact ih (fun m2 hm2 => h m2 (List.mem_cons_of_mem m hm2))

/-- C10: uses_valid_codelist_terms returns true at every row whose
codelist cell is empty or null, regardless of the terms and of
codelist_term_maps, and false at every row whose non-empty codelist
appears in none of the supplied codelist_term_maps. -/
theorem C10_codelist_terms
    (d : DataframeType) (a : Args) (r : Nat) (cname : String)
    (tcol ccol : List Cell) (tv cv : Cell) (mask : List Bool)
    (hwf : d.value.WF)
    (hcc : d.cellReplacePfx a.comparator = .str cname)
    (htc : d.value.get? (d.replacePfx a.target) = some tcol)
    (hcl : d.value.get? cname = some ccol)
    (htv : tcol.get? r = some tv) (hcv : ccol.get? r = some cv)
    (h : d.uses_valid_codelist_terms a = some mask) :
    ((tv = .null ∨ tv = .str "") → mask.get? r = some true) ∧
    (∀ c, tv = .str c → c ≠ "" →
      (∀ m ∈ d.codelist_term_maps, assocLookup m c = none) →
      mask.get? r = some false) := by
  have hr : r < d.value.nrows := by
    have h1 : r < tcol.length := by
      cases hlt : Nat.decLt r tcol.length with
      | isTrue ht => exact ht
      | isFalse hf =>
        rw [List.get?_eq_none.mpr (Nat.le_of_not_lt hf)] at htv
        cases htv
    rwa [DataFrame.length_of_get? hwf htc] at h1
  unfold DataframeType.uses_valid_codelist_terms at h
  rw [hcc] at h
  simp only [htc, hcl] at h
  have hgr := mapOpt_get? h (List.get?_range hr)
  rw [htv, hcv] at hgr
  simp only at hgr
  constructor
  · intro hempty
    rw [hgr]
    rcases hempty with hnull | hstr
    · subst hnull; rfl
    · subst hstr; rfl
  · intro c hc hne hnone
    subst hc
    rw [hgr]
    unfold DataframeType.valid_terms
    have htr : cellTruthy (.str c) = true := by
      simp [cellTruthy]
      exact hne
    rw [htr]
    simp only [Bool.not_true, Bool.false_eq_true, if_false]
    exact foldl_valid_terms_none hnone false

/-- Witness for C10: row 0 has a null codelist (valid), row 1 has codelist
"X" known to none of the term maps (invalid). -/
theorem C10_witness :
    ∃ mask, DataframeType.uses_valid_codelist_terms
        ⟨⟨[("CL", [.null, .str "X"]), ("TERMS", [.strList [], .strList ["a"]])]⟩,
          [], [[("OTHER", ⟨some true, some ["a"]⟩)]]⟩
        ⟨"CL", .str "TERMS", false, "", "", 0, 0⟩ = some mask ∧
      mask.get? 0 = some true ∧ mask.get? 1 = some false := by
  refine ⟨[true, false], by decide, ?_, ?_⟩
  · exact (C10_codelist_terms
      ⟨⟨[("CL", [.null, .str "X"]), ("TERMS", [.strList [], .strList ["a"]])]⟩,
        [], [[("OTHER", ⟨some true, some ["a"]⟩)]]⟩
      ⟨"CL", .str "TERMS", false, "", "", 0, 0⟩ 0 "TERMS"
      [.null, .str "X"] [.strList [], .strList ["a"]] .null (.strList [])
      [true, false]
      (by intro p hp; fin_cases hp <;> rfl)
      (by rfl) (by rfl) (by rfl) (by rfl) (by rfl) (by decide)).1 (Or.inl rfl)
  · exact (C10_codelist_terms
      ⟨⟨[("CL", [.null, .str "X"]), ("TERMS", [.strList [], .strList ["a"]])]⟩,
        [], [[("OTHER", ⟨some true, some ["a"]⟩)]]⟩
      ⟨"CL", .str "TERMS", false, "", "", 0, 0⟩ 1 "TERMS"
      [.null, .str "X"] [.strList [], .strList ["a"]] (.str "X") (.strList ["a"])
      [true, false]
      (by intro p hp; fin_cases hp <;> rfl)
      (by rfl) (by rfl) (by rfl) (by rfl) (by rfl) (by decide)).2 "X" rfl
      (by decide) (by intro m hm; fin_cases hm <;> rfl)

/-- Witness for C9 at concrete falsy and truthy payloads. -/
theorem C9_witness :
    StringType.assertValidValueAndCast (.int 0) = .ok "" ∧
    StringType.assertValidValueAndCast (.str "abc") = .ok "abc" := by
  exact ⟨C9_stringtype_falsy.2.2.2.2.2.1 (.int 0) rfl,
    C9_stringtype_falsy.2.2.2.2.2.2.2 "abc" (by decide)⟩

end BusinessRules
